import Mathlib

/-!
Shallow embedding of `scripts/check_alltests.py`, a lint script that checks
that every `XCTestCase` subclass in `Tests/SwiftZlibTests` has a static
`allTests` registry covering all of its `func test...` methods.

A file's content is modelled as its list of lines (the script reads the whole
file and splits on a newline).  The script's regular expressions are anchored
at the start of the line (`re.search` with a leading `^` and no MULTILINE flag
behaves like `re.match`), so each one is translated as a deterministic
left-to-right consumer of the line's characters.  The character classes `\w`
and `\s` are translated at their ASCII meaning (all inputs considered in this
development are ASCII; Python's classes additionally accept some non-ASCII
characters).
-/

set_option maxRecDepth 10000

/-- ASCII whitespace, the characters Python's `\s` and `str.strip` treat as
whitespace (`\x0b` and `\x0c` are vertical tab and form feed). -/
def isWs (c : Char) : Bool :=
  c = ' ' || c = '\t' || c = '\n' || c = '\r' || c = '\x0b' || c = '\x0c'

/-- ASCII word character, Python's `\w` (letters, digits, underscore). -/
def isWordChar (c : Char) : Bool :=
  c.isAlphanum || c = '_'

/-- Consume a literal sequence of characters; `none` when it is not there. -/
def litChars : List Char → List Char → Option (List Char)
  | [], cs => some cs
  | _ :: _, [] => none
  | n :: ns, c :: cs => if c = n then litChars ns cs else none

/-- `\s+`: at least one whitespace character, consumed greedily. -/
def ws1 : List Char → Option (List Char)
  | [] => none
  | c :: cs => if isWs c then some (List.dropWhile isWs cs) else none

/-- `\w+`: split off the leading (possibly empty) run of word characters. -/
def takeWord : List Char → List Char × List Char
  | [] => ([], [])
  | c :: cs =>
    if isWordChar c then
      let r := takeWord cs
      (c :: r.1, r.2)
    else ([], c :: cs)

/-- `(\w+)`: capture at least one word character. -/
def word1 (cs : List Char) : Option (List Char × List Char) :=
  match takeWord cs with
  | ([], _) => none
  | (w, rest) => some (w, rest)

/-- An optional keyword followed by `\s+`, as in `(?:throws\s+)?`: consumed
only when the keyword and at least one whitespace character are both there
(otherwise the regex engine backtracks to the empty alternative). -/
def tryKw (kw : List Char) (cs : List Char) : List Char :=
  match litChars kw cs with
  | some r =>
    match ws1 r with
    | some r2 => r2
    | none => cs
  | none => cs

/-- Is `n` a prefix of `h` (character by character)? -/
def startsWithChars : List Char → List Char → Bool
  | [], _ => true
  | _ :: _, [] => false
  | n :: ns, c :: cs => n = c && startsWithChars ns cs

/-- Is `n` a contiguous substring of `h`?  Python's `n in h` on strings. -/
def containsChars (n : List Char) : List Char → Bool
  | [] => startsWithChars n []
  | c :: cs => startsWithChars n (c :: cs) || containsChars n cs

/-- Python's `needle in hay` substring test. -/
def strContains (hay needle : String) : Bool :=
  containsChars needle.data hay.data

/-- Python's `str.strip()` on the character list (ASCII whitespace). -/
def trimChars (cs : List Char) : List Char :=
  ((cs.dropWhile isWs).reverse.dropWhile isWs).reverse

/-- Python's `str.strip()`. -/
def trimStr (s : String) : String :=
  String.mk (trimChars s.data)

/-- `line.strip().endswith(']')`. -/
def endsRB (l : String) : Bool :=
  match (trimChars l.data).getLast? with
  | some c => c = ']'
  | none => false

/-- `', '.join` of a list of names. -/
def joinComma : List String → String
  | [] => ""
  | [x] => x
  | x :: y :: xs => x ++ ", " ++ joinComma (y :: xs)

/-- First match of `re.search(r'"([^"]+)"', line)` after an opening quote has
been seen: collect the characters up to the closing quote.  An immediately
following quote means the candidate match is empty and fails, and the search
resumes with that quote as the new opening candidate. -/
def firstQuotedOpen (acc : List Char) : List Char → Option String
  | [] => none
  | c :: cs =>
    if c = '\"' then
      match acc with
      | [] => firstQuotedOpen [] cs
      | _ :: _ => some (String.mk acc.reverse)
    else firstQuotedOpen (c :: acc) cs

/-- `re.search(r'"([^"]+)"', line)`: the first nonempty quote-free run of
characters enclosed in double quotes, if any. -/
def firstQuoted : List Char → Option String
  | [] => none
  | c :: cs => if c = '\"' then firstQuotedOpen [] cs else firstQuoted cs

/-- The class declaration pattern
`^\s*(?:final\s+)?class\s+(\w+)\s*:\s*XCTestCase`, returning the captured
class name.  The script applies it with `re.match` to the stripped line. -/
def matchClassChars (cs0 : List Char) : Option String :=
  let cs1 := List.dropWhile isWs cs0
  let cs2 := tryKw "final".data cs1
  (litChars "class".data cs2).bind fun r1 =>
  (ws1 r1).bind fun r2 =>
  (word1 r2).bind fun wr =>
  let r3 := List.dropWhile isWs wr.2
  (litChars [':'] r3).bind fun r4 =>
  let r5 := List.dropWhile isWs r4
  (litChars "XCTestCase".data r5).map fun _ =>
  String.mk wr.1

/-- The test method pattern
`^\s*func\s+(test\w+)\s*\([^)]*\)\s*(?:throws\s+)?(?:async\s+)?(?:throws\s+)?(?:async\s+)?\s*\{`,
returning the captured method name (`test` plus at least one word
character).  `[^)]*\)` consumes up to and including the first `)`. -/
def matchTestMethodChars (cs0 : List Char) : Option String :=
  let cs1 := List.dropWhile isWs cs0
  (litChars "func".data cs1).bind fun r1 =>
  (ws1 r1).bind fun r2 =>
  (litChars "test".data r2).bind fun r3 =>
  (word1 r3).bind fun wr =>
  let r4 := List.dropWhile isWs wr.2
  (litChars ['('] r4).bind fun r5 =>
  let r6 := List.dropWhile (fun c => !(c = ')')) r5
  (litChars [')'] r6).bind fun r7 =>
  let r8 := List.dropWhile isWs r7
  let r9 := tryKw "throws".data r8
  let r10 := tryKw "async".data r9
  let r11 := tryKw "throws".data r10
  let r12 := tryKw "async".data r11
  let r13 := List.dropWhile isWs r12
  (litChars ['\x7b'] r13).map fun _ =>
  String.mk ("test".data ++ wr.1)

/-- `(?:var|let)` inside the first allTests pattern. -/
def varOrLet (cs : List Char) : Option (List Char) :=
  match litChars "var".data cs with
  | some r => some r
  | none => litChars "let".data cs

/-- The first allTests pattern `^\s*static\s+(?:var|let)\s+allTests\s*[:=]`. -/
def allTestsP1 (cs0 : List Char) : Option Unit :=
  let cs1 := List.dropWhile isWs cs0
  (litChars "static".data cs1).bind fun r1 =>
  (ws1 r1).bind fun r2 =>
  (varOrLet r2).bind fun r3 =>
  (ws1 r3).bind fun r4 =>
  (litChars "allTests".data r4).bind fun r5 =>
  match List.dropWhile isWs r5 with
  | c :: _ => if c = ':' || c = '=' then some () else none
  | [] => none

/-- Front of the second allTests pattern: `^\s*static\s+let\s+allTests\s*:`. -/
def allTestsP2Head (cs0 : List Char) : Option (List Char) := do
  let r1 ← litChars "static".data (List.dropWhile isWs cs0)
  let r2 ← ws1 r1
  let r3 ← litChars "let".data r2
  let r4 ← ws1 r3
  let r5 ← litChars "allTests".data r4
  litChars [':'] (List.dropWhile isWs r5)

/-- Middle of the second allTests pattern: `\s*\[\(String,\s*\([^)]+\)`. -/
def allTestsP2Elem (cs : List Char) : Option (List Char) := do
  let r9 ← litChars "[(String,".data (List.dropWhile isWs cs)
  let r11 ← litChars ['('] (List.dropWhile isWs r9)
  let r12 := List.dropWhile (fun c => !(c = ')')) r11
  if r12.length = r11.length then none else litChars [')'] r12

/-- Tail of the second allTests pattern:
`\s*->\s*\(\)\s*throws\s*->\s*Void\)\]\s*=`. -/
def allTestsP2Tail (cs : List Char) : Option Unit := do
  let r15 ← litChars "->".data (List.dropWhile isWs cs)
  let r17 ← litChars "()".data (List.dropWhile isWs r15)
  let r19 ← litChars "throws".data (List.dropWhile isWs r17)
  let r21 ← litChars "->".data (List.dropWhile isWs r19)
  let r23 ← litChars "Void".data (List.dropWhile isWs r21)
  let r24 ← litChars ")]".data r23
  let _ ← litChars ['='] (List.dropWhile isWs r24)
  pure ()

/-- The second allTests pattern
`^\s*static\s+let\s+allTests\s*:\s*\[\(String,\s*\([^)]+\)\s*->\s*\(\)\s*throws\s*->\s*Void\)\]\s*=`. -/
def allTestsP2 (cs0 : List Char) : Option Unit := do
  let a ← allTestsP2Head cs0
  let b ← allTestsP2Elem a
  allTestsP2Tail b

/-- A line matching either allTests declaration pattern (the script tries the
patterns in order; either match sets the same fields). -/
def matchesAllTests (l : String) : Bool :=
  (allTestsP1 l.data).isSome || (allTestsP2 l.data).isSome

/-- One discovered test class, mirroring the Python class `TestClassInfo`. -/
structure TestClassInfo where
  filename : String
  class_name : String
  line_number : Nat
  has_alltests : Bool
  alltests_signature : Option String
  test_methods : List String
  alltests_methods : List String
deriving DecidableEq

/-- `TestClassInfo.__init__`: only the identifying fields are set, the
analysis fields start at their defaults. -/
def mkTestClassInfo (filename class_name : String) (line_number : Nat) : TestClassInfo :=
  ⟨filename, class_name, line_number, false, none, [], []⟩

/-- A Swift source file: its path and its content split at newlines
(`content.split('\n')`). -/
structure SwiftFile where
  path : String
  lines : List String
deriving DecidableEq

/-- `enumerate(lines, 1)`. -/
def enumFrom (n : Nat) : List String → List (Nat × String)
  | [] => []
  | l :: ls => (n, l) :: enumFrom (n + 1) ls

/-- `extract_test_classes`: one record per line whose stripped text matches
the class pattern, with the 1-based line number. -/
def extract_test_classes (f : SwiftFile) : List TestClassInfo :=
  (enumFrom 1 f.lines).filterMap fun p =>
    match matchClassChars (trimChars p.2.data) with
    | some name => some (mkTestClassInfo f.path name p.1)
    | none => none

/-- The allTests-declaration scan of `analyze_test_class`: every line is
visited; each line matching one of the two patterns overwrites the flag and
the stored stripped signature (the `break` in the source only leaves the
inner loop over the two patterns, not the loop over lines). -/
def allTestsScanAux (acc : Bool × Option String) : List String → Bool × Option String
  | [] => acc
  | l :: ls => allTestsScanAux (if matchesAllTests l then (true, some (trimStr l)) else acc) ls

/-- `'static' in line and 'allTests' in line and '=' in line`, the condition
that (re-)enters the in-registry mode of the allTests-contents scan. -/
def entryLine (l : String) : Bool :=
  strContains l "static" && strContains l "allTests" && strContains l "="

/-- The allTests-contents scan of `analyze_test_class`: an entry line flips
`in_alltests` on and is skipped (`continue`); while inside, the first quoted
literal of a line (if any) is captured, and a line whose stripped text ends
with `]` stops the scan after its own capture. -/
def scanContents : Bool → List String → List String
  | _, [] => []
  | inA, l :: ls =>
    if entryLine l then scanContents true ls
    else if inA then
      match firstQuoted l.data with
      | some m => if endsRB l then [m] else m :: scanContents true ls
      | none => if endsRB l then [] else scanContents true ls
    else scanContents false ls

/-- `analyze_test_class`: fill in the analysis fields of a record from the
file's lines.  The Python function mutates the record in place; here the
updated record is returned (each scan starts from the record's current field
values, as the in-place loops do). -/
def analyze_test_class (f : SwiftFile) (tc : TestClassInfo) : TestClassInfo :=
  let hs := allTestsScanAux (tc.has_alltests, tc.alltests_signature) f.lines
  let tms := tc.test_methods ++ f.lines.filterMap fun l => matchTestMethodChars l.data
  let ams :=
    if hs.1 then tc.alltests_methods ++ scanContents false f.lines
    else tc.alltests_methods
  { tc with
    has_alltests := hs.1
    alltests_signature := hs.2
    test_methods := tms
    alltests_methods := ams }

/-- Membership test on a list of names, Python's `x in s`. -/
def memStr (x : String) : List String → Bool
  | [] => false
  | y :: ys => x == y || memStr x ys

/-- Remove duplicates, keeping one occurrence of each name: a canonical list
representation of a Python `set` of strings. -/
def dedupStr : List String → List String
  | [] => []
  | x :: xs => if memStr x xs then dedupStr xs else x :: dedupStr xs

/-- `set(a) - set(b)` as a canonical list: the elements of `a` not in `b`,
deduplicated.  A Python `set` has no specified iteration order; where the
script iterates over such a set (the `', '.join` calls) the order is supplied
by an explicit ordering oracle. -/
def pySetDiff (a b : List String) : List String :=
  dedupStr (a.filter fun x => !(memStr x b))

def missingAllTestsMsg : String := "❌ Missing allTests property"

def sigAdviceMsg : String :=
  "⚠️  Consider using \x27static var allTests\x27 for consistency"

def missingIssueMsg (names : String) : String :=
  "❌ Missing test methods in allTests: " ++ names

def extraIssueMsg (names : String) : String :=
  "⚠️  Extra methods in allTests (may be intentional): " ++ names

/-- A blocking issue carries the leading error glyph; advisory issues carry
the warning glyph instead. -/
def isBlocking (s : String) : Bool :=
  startsWithChars "❌".data s.data

/-- `check_alltests_coverage`: the list of issue strings for one analyzed
record.  `order` supplies the iteration order of the Python sets in the two
`', '.join` calls.  (When `has_alltests` is true the analyzer always stored a
signature; `getD ""` is never exercised on pipeline records.) -/
def check_alltests_coverage (order : List String → List String)
    (tc : TestClassInfo) : List String :=
  if !tc.has_alltests then [missingAllTestsMsg]
  else
    (if strContains (tc.alltests_signature.getD "") "static var allTests" then []
     else [sigAdviceMsg]) ++
    ((if (pySetDiff tc.test_methods tc.alltests_methods).isEmpty then []
      else [missingIssueMsg (joinComma (order (pySetDiff tc.test_methods tc.alltests_methods)))]) ++
     (if (pySetDiff tc.alltests_methods tc.test_methods).isEmpty then []
      else [extraIssueMsg (joinComma (order (pySetDiff tc.alltests_methods tc.test_methods)))]))

/-- The lines `main` prints for one record: nothing when it has no issues,
otherwise a `file:line - class` header followed by the indented issues. -/
def perClassOutput (order : List String → List String) (tc : TestClassInfo) : List String :=
  if (check_alltests_coverage order tc).isEmpty then []
  else
    ("\n📁 " ++ tc.filename ++ ":" ++ toString tc.line_number ++ " - " ++ tc.class_name) ::
    (check_alltests_coverage order tc).map (fun s => "   " ++ s)

/-- The records produced by `main`'s extraction/analysis loop over the
discovered files. -/
def pipelineRecords (files : List SwiftFile) : List TestClassInfo :=
  (files.map fun f => (extract_test_classes f).map (analyze_test_class f)).flatten

/-- `all_issues` accumulated by `main` over a list of records. -/
def allIssuesOf (order : List String → List String) (records : List TestClassInfo) : List String :=
  (records.map (check_alltests_coverage order)).flatten

/-- `find_test_files`, with the filesystem modelled as explicit input: a flag
for whether `Tests/SwiftZlibTests` exists and the list of `.swift` files
found under it (in traversal order), plus the error line the function prints
when the directory is missing. -/
def find_test_files (dirExists : Bool) (files : List SwiftFile) : List SwiftFile × List String :=
  if dirExists then (files, [])
  else ([], ["❌ Tests/SwiftZlibTests directory not found"])

/-- `main`: the console output (the successive arguments of `print`, each
possibly containing a leading blank line) and the process exit status. -/
def mainRun (order : List String → List String) (dirExists : Bool)
    (files : List SwiftFile) : List String × Nat :=
  let hello := ["🔍 Checking allTests properties in test files..."]
  let ftf := find_test_files dirExists files
  if ftf.1.isEmpty then (hello ++ ftf.2 ++ ["❌ No test files found"], 1)
  else
    let records := pipelineRecords ftf.1
    let countLine :=
      "\n📊 Found " ++ toString records.length ++ " test classes in " ++
        toString ftf.1.length ++ " files"
    let report := (records.map (perClassOutput order)).flatten
    let issues := allIssuesOf order records
    if issues.isEmpty then
      (hello ++ ftf.2 ++ [countLine] ++ report ++
        ["\n✅ All test classes have proper allTests properties!"], 0)
    else
      (hello ++ ftf.2 ++ [countLine] ++ report ++
        ["\n❌ Found " ++ toString issues.length ++ " issues with allTests properties",
         "\n💡 Recommendations:",
         "   - Add \x27static var allTests = [...]\x27 to missing classes",
         "   - Include all test methods in allTests array",
         "   - Use consistent signature: static var allTests = [...]"], 1)

/-- The process exit status of a run. -/
def mainExit (order : List String → List String) (dirExists : Bool)
    (files : List SwiftFile) : Nat :=
  (mainRun order dirExists files).2

/-- The console output of a run. -/
def mainOut (order : List String → List String) (dirExists : Bool)
    (files : List SwiftFile) : List String :=
  (mainRun order dirExists files).1

/-- All issues of a run over the given tree (when the directory exists). -/
def allIssues (order : List String → List String) (files : List SwiftFile) : List String :=
  allIssuesOf order (pipelineRecords files)

/-- A legitimate iteration order for Python sets given as canonical lists: it
lists exactly the elements of the set, each once. -/
def ValidOrder (o : List String → List String) : Prop :=
  ∀ xs : List String, List.Perm (o xs) xs

/-- A well-formed test class whose registry covers all tests but is declared
with `static let`: its only issue is the advisory signature-style one. -/
def fileAdvisory : SwiftFile :=
  ⟨"Tests/SwiftZlibTests/Adv.swift",
   ["class AdvTests : XCTestCase \x7b",
    "    func testA() \x7b\x7d",
    "    static let allTests = [",
    "        (\"testA\", testA),",
    "    ]",
    "\x7d"]⟩

/-- The file of the spec's end-to-end scenario, with the whole class on a
single line. -/
def fileOneLine : SwiftFile :=
  ⟨"Tests/SwiftZlibTests/Foo.swift",
   ["class FooTests : XCTestCase \x7b func testA()\x7b\x7d func testB()\x7b\x7d static var allTests = [(\"testA\", testA)] \x7d"]⟩

/-- A file with two lines matching the registry-declaration patterns. -/
def fileTwoDecls : SwiftFile :=
  ⟨"Tests/SwiftZlibTests/Bar.swift",
   ["class BarTests : XCTestCase \x7b",
    "    static var allTests = [",
    "    static let allTests = [",
    "    ]",
    "\x7d"]⟩

/-- A class with two test methods and an empty registry. -/
def fileTwoMissing : SwiftFile :=
  ⟨"Tests/SwiftZlibTests/Two.swift",
   ["class TwoTests : XCTestCase \x7b",
    "    func testA() \x7b\x7d",
    "    func testB() \x7b\x7d",
    "    static var allTests = [",
    "    ]",
    "\x7d"]⟩

/-- A minimal class with a registry declaration and an empty array. -/
def fileBaz : SwiftFile :=
  ⟨"Tests/SwiftZlibTests/Baz.swift",
   ["class BazTests : XCTestCase \x7b",
    "    static var allTests = [",
    "    ]",
    "\x7d"]⟩

/-- Lines where, inside the registry, a line satisfying the entry condition
ends with `]`: the scan skips it rather than stopping there. -/
def linesEntrySkip : List String :=
  ["static var allTests = [",
   "static allTests = x]",
   "(\"late\", late)]"]

/-- Lines with a single-line registry declaration followed by a second
single-line declaration and a closing entry line. -/
def linesOneLineDecl : List String :=
  ["static var allTests = [(\"a\", a)]",
   "static let allTests = [\"b\"]",
   "(\"c\")]"]

/-- A freshly extracted record that was never analyzed against a registry. -/
def recNoRegistry : TestClassInfo :=
  mkTestClassInfo "Tests/SwiftZlibTests/W.swift" "WTests" 1

/-- A record whose registry lists exactly its declared test methods. -/
def recCovered : TestClassInfo :=
  ⟨"Tests/SwiftZlibTests/C.swift", "CTests", 1, true,
   some "static var allTests = [", ["testA"], ["testA"]⟩

theorem memStr_iff (x : String) (l : List String) : memStr x l = true ↔ x ∈ l := by
  induction l with
  | nil => simp [memStr]
  | cons y ys ih => simp [memStr, ih, beq_iff_eq, List.mem_cons]

theorem dedupStr_eq_nil_iff (l : List String) : dedupStr l = [] ↔ l = [] := by
  induction l with
  | nil => simp [dedupStr]
  | cons x xs ih =>
    by_cases h : memStr x xs = true
    · have hx : x ∈ xs := (memStr_iff x xs).1 h
      have hxs : xs ≠ [] := by
        intro he
        rw [he] at hx
        simp at hx
      simp [dedupStr, h, ih, hxs]
    · simp [dedupStr, h]

theorem pySetDiff_eq_nil_iff (a b : List String) :
    pySetDiff a b = [] ↔ ∀ x ∈ a, x ∈ b := by
  simp [pySetDiff, dedupStr_eq_nil_iff, List.filter_eq_nil_iff, memStr_iff]

theorem find?_concat (p : String → Bool) (xs : List String) (y : String) :
    List.find? p (xs ++ [y]) =
      match List.find? p xs with
      | some r => some r
      | none => if p y then some y else none := by
  induction xs with
  | nil => cases hp : p y <;> simp [List.find?, hp]
  | cons x xs ih => cases hp : p x <;> simp [List.find?_cons, hp, ih]

theorem allTestsScanAux_eq (ls : List String) :
    ∀ acc, allTestsScanAux acc ls =
      match List.find? matchesAllTests ls.reverse with
      | some l => (true, some (trimStr l))
      | none => acc := by
  induction ls with
  | nil => intro acc; simp [allTestsScanAux, List.find?]
  | cons l ls ih =>
    intro acc
    rw [allTestsScanAux, ih, List.reverse_cons, find?_concat]
    cases hf : List.find? matchesAllTests ls.reverse <;>
      cases hm : matchesAllTests l <;> simp [hf, hm]

theorem extract_fresh {f : SwiftFile} {tc : TestClassInfo}
    (h : tc ∈ extract_test_classes f) :
    tc.has_alltests = false ∧ tc.alltests_signature = none ∧
      tc.test_methods = [] ∧ tc.alltests_methods = [] := by
  rw [extract_test_classes, List.mem_filterMap] at h
  obtain ⟨p, -, hp⟩ := h
  cases hm : matchClassChars (trimChars p.2.data) with
  | none => rw [hm] at hp; simp at hp
  | some name =>
    rw [hm] at hp
    simp only [Option.some.injEq] at hp
    rw [← hp]
    exact ⟨rfl, rfl, rfl, rfl⟩

theorem allIssuesOf_eq_nil_iff (order : List String → List String)
    (records : List TestClassInfo) :
    allIssuesOf order records = [] ↔
      ∀ tc ∈ records, check_alltests_coverage order tc = [] := by
  simp [allIssuesOf, List.flatten_eq_nil_iff]

theorem check_length_indep (o1 o2 : List String → List String) (tc : TestClassInfo) :
    (check_alltests_coverage o1 tc).length = (check_alltests_coverage o2 tc).length := by
  rw [check_alltests_coverage, check_alltests_coverage]
  split_ifs <;> simp [List.length_append]

theorem isEmpty_congr {l1 l2 : List String} (h : l1.length = l2.length) :
    l1.isEmpty = l2.isEmpty := by
  cases l1 <;> cases l2 <;> simp_all

theorem perClassOutput_length_indep (o1 o2 : List String → List String)
    (tc : TestClassInfo) :
    (perClassOutput o1 tc).length = (perClassOutput o2 tc).length := by
  rw [perClassOutput, perClassOutput,
    isEmpty_congr (check_length_indep o1 o2 tc)]
  split_ifs <;> simp [List.length_map, check_length_indep o1 o2 tc]

theorem allIssuesOf_length_indep (o1 o2 : List String → List String)
    (records : List TestClassInfo) :
    (allIssuesOf o1 records).length = (allIssuesOf o2 records).length := by
  induction records with
  | nil => rfl
  | cons tc tcs ih =>
    have h1 := check_length_indep o1 o2 tc
    simp only [allIssuesOf, List.map_cons, List.flatten_cons, List.length_append] at ih ⊢
    omega

theorem report_length_indep (o1 o2 : List String → List String)
    (records : List TestClassInfo) :
    ((records.map (perClassOutput o1)).flatten).length =
      ((records.map (perClassOutput o2)).flatten).length := by
  induction records with
  | nil => rfl
  | cons tc tcs ih =>
    have h1 := perClassOutput_length_indep o1 o2 tc
    simp only [List.map_cons, List.flatten_cons, List.length_append] at ih ⊢
    omega

/-- C5: a record analyzed without a registry declaration receives exactly the
one blocking "missing allTests property" issue; neither the signature check
nor the coverage checks contribute anything for it. -/
theorem c5_missing_registry_single_issue (order : List String → List String)
    (tc : TestClassInfo) (h : tc.has_alltests = false) :
    check_alltests_coverage order tc = [missingAllTestsMsg] := by
  simp [check_alltests_coverage, h]

theorem c5_missing_registry_single_issue_witness :
    recNoRegistry.has_alltests = false ∧
      check_alltests_coverage id recNoRegistry = [missingAllTestsMsg] :=
  ⟨rfl, c5_missing_registry_single_issue id recNoRegistry rfl⟩

/-- C6: when a record has a registry and the names in `alltests_methods` are
the same set as the names in `test_methods` (any order, any multiplicity),
the coverage checker emits no blocking issue for it. -/
theorem c6_full_coverage_no_blocking (order : List String → List String)
    (tc : TestClassInfo) (h1 : tc.has_alltests = true)
    (h2 : ∀ m : String, m ∈ tc.test_methods ↔ m ∈ tc.alltests_methods) :
    (check_alltests_coverage order tc).filter isBlocking = [] := by
  have hmiss : pySetDiff tc.test_methods tc.alltests_methods = [] :=
    (pySetDiff_eq_nil_iff _ _).2 fun x hx => (h2 x).1 hx
  have hext : pySetDiff tc.alltests_methods tc.test_methods = [] :=
    (pySetDiff_eq_nil_iff _ _).2 fun x hx => (h2 x).2 hx
  have hb : isBlocking sigAdviceMsg = false := by decide
  simp [check_alltests_coverage, h1, hmiss, hext, hb]

theorem c6_full_coverage_no_blocking_witness :
    recCovered.has_alltests = true ∧
      recCovered.test_methods = recCovered.alltests_methods ∧
      (check_alltests_coverage id recCovered).filter isBlocking = [] :=
  ⟨rfl, rfl, c6_full_coverage_no_blocking id recCovered rfl fun _ => Iff.rfl⟩

/-- C9: on every record coming out of the extractor, analysis leaves
`has_alltests` true exactly when it stored a registry signature. -/
theorem c9_hasRegistry_iff_signature (f : SwiftFile) (tc : TestClassInfo)
    (h : tc ∈ extract_test_classes f) :
    (analyze_test_class f tc).has_alltests = true ↔
      ((analyze_test_class f tc).alltests_signature).isSome = true := by
  obtain ⟨h1, h2, -, -⟩ := extract_fresh h
  simp only [analyze_test_class, h1, h2]
  rw [allTestsScanAux_eq]
  cases hf : List.find? matchesAllTests f.lines.reverse <;> simp

theorem c9_hasRegistry_iff_signature_witness :
    (mkTestClassInfo "Tests/SwiftZlibTests/Baz.swift" "BazTests" 1 ∈
        extract_test_classes fileBaz) ∧
      ((analyze_test_class fileBaz
          (mkTestClassInfo "Tests/SwiftZlibTests/Baz.swift" "BazTests" 1)).has_alltests = true ↔
        ((analyze_test_class fileBaz
            (mkTestClassInfo "Tests/SwiftZlibTests/Baz.swift" "BazTests" 1)).alltests_signature).isSome = true) :=
  ⟨by decide, c9_hasRegistry_iff_signature fileBaz _ (by decide)⟩

/-- C3 (corrected): the registry-declaration scan overwrites the stored
signature on every matching line, so an analyzed record's signature is the
trimmed text of the LAST matching line, not the first. -/
theorem c3_amended_signature_is_last_match (f : SwiftFile) (tc : TestClassInfo)
    (h : tc ∈ extract_test_classes f)
    (hex : ∃ l ∈ f.lines, matchesAllTests l = true) :
    (analyze_test_class f tc).has_alltests = true ∧
      (analyze_test_class f tc).alltests_signature =
        (List.find? matchesAllTests f.lines.reverse).map trimStr := by
  obtain ⟨h1, h2, -, -⟩ := extract_fresh h
  simp only [analyze_test_class, h1, h2]
  rw [allTestsScanAux_eq]
  cases hf : List.find? matchesAllTests f.lines.reverse with
  | none =>
    exfalso
    obtain ⟨l, hl, hml⟩ := hex
    exact List.find?_eq_none.1 hf l (List.mem_reverse.2 hl) hml
  | some l => simp

theorem c3_amended_signature_is_last_match_witness :
    (mkTestClassInfo "Tests/SwiftZlibTests/Bar.swift" "BarTests" 1 ∈
        extract_test_classes fileTwoDecls) ∧
      ((analyze_test_class fileTwoDecls
          (mkTestClassInfo "Tests/SwiftZlibTests/Bar.swift" "BarTests" 1)).has_alltests = true ∧
        (analyze_test_class fileTwoDecls
            (mkTestClassInfo "Tests/SwiftZlibTests/Bar.swift" "BarTests" 1)).alltests_signature =
          (List.find? matchesAllTests fileTwoDecls.lines.reverse).map trimStr) :=
  ⟨by decide,
   c3_amended_signature_is_last_match fileTwoDecls _ (by decide)
     ⟨"    static var allTests = [", by decide, by decide⟩⟩

/-- C3 counterexample: in a file whose second line `static var allTests = [`
is the first matching registry declaration and whose third line
`static let allTests = [` also matches, the analyzed record stores the third
line's trimmed text, not the first matching line's. -/
theorem c3_counterexample_last_decl_wins :
    matchesAllTests "    static var allTests = [" = true ∧
      (fileTwoDecls.lines.find? matchesAllTests).map trimStr =
        some "static var allTests = [" ∧
      (pipelineRecords [fileTwoDecls]).map (fun tc => tc.alltests_signature) =
        [some "static let allTests = ["] ∧
      some "static let allTests = [" ≠ (some "static var allTests = [" : Option String) := by
  decide

/-- C7 (corrected): while inside the registry, a line that itself satisfies
the entry condition (`static`, `allTests` and `=` all occur in it) is skipped
outright — it contributes no literal and its trailing `]` does not stop the
scan; every other line contributes its first quoted literal (if any), and the
scan stops at the first such line whose stripped text ends with `]`.  Every
captured name is the first quoted literal of some scanned line. -/
theorem c7_amended_scan_step :
    (∀ (l : String) (ls : List String),
        scanContents true (l :: ls) =
          if entryLine l then scanContents true ls
          else (firstQuoted l.data).toList ++
            (if endsRB l then [] else scanContents true ls)) ∧
    (∀ (lines : List String) (m : String), m ∈ scanContents true lines →
        ∃ l ∈ lines, firstQuoted l.data = some m) := by
  constructor
  · intro l ls
    by_cases h1 : entryLine l
    · simp [scanContents, h1]
    · cases hq : firstQuoted l.data <;> cases he : endsRB l <;>
        simp [scanContents, h1, hq, he]
  · intro lines
    induction lines with
    | nil => intro m hm; simp [scanContents] at hm
    | cons l ls ih =>
      intro m hm
      by_cases h1 : entryLine l
      · rw [scanContents, if_pos h1] at hm
        obtain ⟨l2, hl2, hq2⟩ := ih m hm
        exact ⟨l2, List.mem_cons_of_mem _ hl2, hq2⟩
      · rw [scanContents, if_neg h1, if_pos rfl] at hm
        cases hq : firstQuoted l.data with
        | some m2 =>
          rw [hq] at hm
          cases he : endsRB l with
          | true =>
            rw [he] at hm
            simp only [if_true, List.mem_singleton] at hm
            exact ⟨l, List.mem_cons_self l ls, hm ▸ hq⟩
          | false =>
            rw [he] at hm
            simp only [Bool.false_eq_true, if_false, List.mem_cons] at hm
            rcases hm with rfl | hm
            · exact ⟨l, List.mem_cons_self l ls, hq⟩
            · obtain ⟨l2, hl2, hq2⟩ := ih m hm
              exact ⟨l2, List.mem_cons_of_mem _ hl2, hq2⟩
        | none =>
          rw [hq] at hm
          cases he : endsRB l with
          | true => rw [he] at hm; simp at hm
          | false =>
            rw [he] at hm
            simp only [Bool.false_eq_true, if_false] at hm
            obtain ⟨l2, hl2, hq2⟩ := ih m hm
            exact ⟨l2, List.mem_cons_of_mem _ hl2, hq2⟩

theorem c7_amended_scan_step_witness :
    ("a" ∈ scanContents true ["(\"a\")]"]) ∧
      (∃ l ∈ ["(\"a\")]"], firstQuoted l.data = some "a") :=
  ⟨by decide, c7_amended_scan_step.2 ["(\"a\")]"] "a" (by decide)⟩

/-- C7 counterexample: in `linesEntrySkip` the second line is scanned while
inside the registry and its stripped text ends with `]`, yet the scan does
not stop there (the line satisfies the entry condition and is skipped): the
third line's literal `late` is still captured. -/
theorem c7_counterexample_entry_line_not_stop :
    endsRB "static allTests = x]" = true ∧
      entryLine "static allTests = x]" = true ∧
      scanContents false linesEntrySkip = ["late"] := by
  decide

/-- C10 (corrected): any line satisfying the entry condition — the registry
declaration line itself, but also any later line containing `static`,
`allTests` and `=` — is skipped entirely by the contents scan (no capture,
no end-of-array check); lines outside the registry that do not satisfy it
are likewise passed over without effect. -/
theorem c10_amended_entry_lines_skipped :
    (∀ (l : String) (ls : List String), entryLine l = true →
        scanContents false (l :: ls) = scanContents true ls) ∧
    (∀ (l : String) (ls : List String), entryLine l = false →
        scanContents false (l :: ls) = scanContents false ls) := by
  constructor <;> intro l ls h <;> simp [scanContents, h]

theorem c10_amended_entry_lines_skipped_witness :
    entryLine "static var allTests = [(\"a\", a)]" = true ∧
      scanContents false ["static var allTests = [(\"a\", a)]", "(\"z\")]"] =
        scanContents true ["(\"z\")]"] :=
  ⟨by decide,
   c10_amended_entry_lines_skipped.1 "static var allTests = [(\"a\", a)]"
     ["(\"z\")]"] (by decide)⟩

/-- C10 counterexample: after the single-line declaration
`static var allTests = [("a", a)]` is skipped, the next line
`static let allTests = ["b"]` carries a quoted literal and ends with `]`,
but — contrary to the claim that every subsequent line's first literal is
appended until a line ends with `]` — it is skipped too: `b` is never
captured and the scan runs on to capture `c`. -/
theorem c10_counterexample_decl_line_skipped :
    firstQuoted "static let allTests = [\"b\"]".data = some "b" ∧
      endsRB "static let allTests = [\"b\"]" = true ∧
      scanContents false linesOneLineDecl = ["c"] ∧
      ¬("b" ∈ scanContents false linesOneLineDecl) := by
  decide

theorem mainExit_spec (order : List String → List String) (dirExists : Bool)
    (files : List SwiftFile) :
    mainExit order dirExists files =
      if dirExists = false ∨ files = [] then 1
      else if allIssues order files = [] then 0 else 1 := by
  cases dirExists with
  | false => simp [mainExit, mainRun, find_test_files]
  | true =>
    cases files with
    | nil => simp [mainExit, mainRun, find_test_files]
    | cons f fs =>
      simp only [mainExit, mainRun, find_test_files, if_true, reduceIte,
        List.isEmpty_cons, Bool.false_eq_true, if_false]
      simp [allIssues, List.isEmpty_iff, apply_ite]

/-- C1 (corrected): the exit status is nonzero exactly when no test file was
found or at least one issue string of ANY severity was emitted — `main`
returns 1 whenever `all_issues` is nonempty, and advisory issues are
accumulated into `all_issues` just like blocking ones. -/
theorem c1_amended_exit_nonzero_iff_any_issue (order : List String → List String)
    (dirExists : Bool) (files : List SwiftFile) :
    mainExit order dirExists files ≠ 0 ↔
      (dirExists = false ∨ files = [] ∨
        ∃ tc ∈ pipelineRecords files, check_alltests_coverage order tc ≠ []) := by
  rw [mainExit_spec]
  cases dirExists with
  | false => simp
  | true =>
    cases files with
    | nil => simp
    | cons f fs =>
      have h1 : ¬((true : Bool) = false ∨ (f :: fs : List SwiftFile) = []) := by simp
      rw [if_neg h1]
      by_cases hB : allIssues order (f :: fs) = []
      · rw [if_pos hB]
        have hall := (allIssuesOf_eq_nil_iff order (pipelineRecords (f :: fs))).1 hB
        constructor
        · intro h
          exact (h rfl).elim
        · rintro (h | h | ⟨tc, htc, hne⟩)
          · exact absurd h (by simp)
          · exact (List.cons_ne_nil f fs h).elim
          · exact (hne (hall tc htc)).elim
      · rw [if_neg hB]
        constructor
        · intro _
          refine Or.inr (Or.inr ?e)
          by_contra hno
          push_neg at hno
          exact hB ((allIssuesOf_eq_nil_iff order (pipelineRecords (f :: fs))).2 hno)
        · intro _
          exact one_ne_zero

/-- C1 counterexample: a tree whose single class has full registry coverage
but the `static let` declaration style produces exactly one advisory issue
and no blocking issue, yet the exit status is 1, not 0. -/
theorem c1_counterexample_advisory_only_exit_one :
    mainExit id true [fileAdvisory] = 1 ∧
      allIssues id [fileAdvisory] = [sigAdviceMsg] ∧
      (allIssues id [fileAdvisory]).filter isBlocking = [] := by
  decide

/-- C4 (corrected): the exit status is 0 exactly when the test directory
exists, at least one test file was found, and no record produced any issue;
an existing directory with NO test files also exits 1 (`main` returns 1 on an
empty `test_files` list regardless of why it is empty). -/
theorem c4_amended_exit_zero_iff (order : List String → List String)
    (dirExists : Bool) (files : List SwiftFile) :
    mainExit order dirExists files = 0 ↔
      (dirExists = true ∧ files ≠ [] ∧
        ∀ tc ∈ pipelineRecords files, check_alltests_coverage order tc = []) := by
  rw [mainExit_spec]
  cases dirExists with
  | false => simp
  | true =>
    cases files with
    | nil => simp
    | cons f fs =>
      have h1 : ¬((true : Bool) = false ∨ (f :: fs : List SwiftFile) = []) := by simp
      rw [if_neg h1]
      by_cases hB : allIssues order (f :: fs) = []
      · rw [if_pos hB]
        have hall := (allIssuesOf_eq_nil_iff order (pipelineRecords (f :: fs))).1 hB
        constructor
        · intro _
          exact ⟨rfl, List.cons_ne_nil f fs, hall⟩
        · intro _
          rfl
      · rw [if_neg hB]
        constructor
        · intro h
          exact absurd h one_ne_zero
        · rintro ⟨-, -, hall⟩
          exact absurd ((allIssuesOf_eq_nil_iff order (pipelineRecords (f :: fs))).2 hall) hB

/-- C4 counterexample: when the directory exists but contains no test files,
there are zero records and zero issues, yet the exit status is 1 (the claim
says it should be 0). -/
theorem c4_counterexample_empty_dir_exit_one :
    mainExit id true ([] : List SwiftFile) = 1 ∧
      pipelineRecords ([] : List SwiftFile) = [] ∧
      allIssues id ([] : List SwiftFile) = [] := by
  decide

/-- C2 counterexample: on the file whose entire content is the one-line class
`class FooTests : XCTestCase { func testA(){} func testB(){} static var allTests = [("testA", testA)] }`,
exactly one class is extracted, but — because every per-line pattern of the
analyzer is anchored at the start of the line — no test method and no
registry are found, contradicting the claimed `testMethods = [testA, testB]`
and `registryMethods = [testA]`. -/
theorem c2_counterexample_one_line_class :
    (extract_test_classes fileOneLine).length = 1 ∧
      (pipelineRecords [fileOneLine]).map (fun tc => tc.test_methods) ≠
        [["testA", "testB"]] ∧
      (pipelineRecords [fileOneLine]).map (fun tc => tc.alltests_methods) ≠
        [["testA"]] := by
  decide

/-- C2 (corrected): processing the one-line file yields exactly one extracted
class `FooTests`, but with `testMethods = []`, `registryMethods = []` and no
registry found; the single issue is the blocking "missing allTests property"
one, and the exit code is 1. -/
theorem c2_amended_one_line_class_behavior :
    (extract_test_classes fileOneLine).map (fun tc => tc.class_name) = ["FooTests"] ∧
      (pipelineRecords [fileOneLine]).map (fun tc => tc.test_methods) = [[]] ∧
      (pipelineRecords [fileOneLine]).map (fun tc => tc.alltests_methods) = [[]] ∧
      (pipelineRecords [fileOneLine]).map (fun tc => tc.has_alltests) = [false] ∧
      allIssues id [fileOneLine] = [missingAllTestsMsg] ∧
      isBlocking missingAllTestsMsg = true ∧
      mainExit id true [fileOneLine] = 1 := by
  decide

/-- C8 counterexample: the output of a run is not a function of the source
tree alone — it also depends on the iteration order of the Python string
sets behind the two `', '.join` calls, which CPython randomizes per process
(PYTHONHASHSEED).  Two runs over the same unchanged tree, one iterating the
missing-methods set one way and one the other way (both legitimate orders of
the same set), print different `missing` lines while agreeing on the exit
code. -/
theorem c8_counterexample_order_dependent_output :
    ValidOrder id ∧ ValidOrder (fun xs => xs.reverse) ∧
      mainExit id true [fileTwoMissing] =
        mainExit (fun xs => xs.reverse) true [fileTwoMissing] ∧
      mainOut id true [fileTwoMissing] ≠
        mainOut (fun xs => xs.reverse) true [fileTwoMissing] :=
  ⟨fun xs => List.Perm.refl xs, fun xs => List.reverse_perm xs, by decide, by decide⟩

/-- C8 (corrected): two runs over the same unchanged tree always agree on the
exit code and print the same number of lines, whatever set-iteration orders
the two interpreter processes use; full textual equality of the output holds
only when the two orders coincide, since the order of names inside the
missing/extra issue strings follows the set-iteration order. -/
theorem c8_amended_exit_and_shape_stable (o1 o2 : List String → List String)
    (dirExists : Bool) (files : List SwiftFile) :
    mainExit o1 dirExists files = mainExit o2 dirExists files ∧
      (mainOut o1 dirExists files).length = (mainOut o2 dirExists files).length := by
  simp only [mainExit, mainOut, mainRun]
  by_cases hE : ((find_test_files dirExists files).1).isEmpty = true
  · rw [if_pos hE, if_pos hE]
    exact ⟨rfl, rfl⟩
  · rw [if_neg hE, if_neg hE]
    have hIe : (allIssuesOf o1 (pipelineRecords (find_test_files dirExists files).1)).isEmpty =
        (allIssuesOf o2 (pipelineRecords (find_test_files dirExists files).1)).isEmpty :=
      isEmpty_congr (allIssuesOf_length_indep o1 o2 _)
    rw [hIe]
    have hrep := report_length_indep o1 o2 (pipelineRecords (find_test_files dirExists files).1)
    by_cases hB : (allIssuesOf o2 (pipelineRecords (find_test_files dirExists files).1)).isEmpty = true
    · rw [if_pos hB, if_pos hB]
      constructor
      · rfl
      · simp only [List.length_append, List.length_cons, List.length_nil]
        omega
    · rw [if_neg hB, if_neg hB]
      constructor
      · rfl
      · simp only [List.length_append, List.length_cons, List.length_nil]
        omega
